import Mathlib

/-!
Shallow embedding of the mongo-backed OAuth2 storage layer
(client manager and request/session manager) together with proofs
about its claimed behaviour.

The mongo collection is modelled as a list of records; the unique
index on the natural key (id for clients, signature for session
records) makes a lookup return the first matching record, an insert
fail on a duplicate key, and an update/upsert replace the matching
record. Wall-clock time and generated UUIDs enter each operation as
explicit parameters, and an engine fault (connectivity loss and the
like) is injected as an explicit optional error code on write calls.
-/

/-- Modelled from the spec: the Client record (the file defining the
Client struct is not among the sources; field set taken from the data
model section: unique ID, hashed secret, contact metadata, grant
types, response types, redirect URIs, scopes, tenant-access attribute,
public flag, disabled flag, Unix-second timestamps). -/
structure Client where
  ID : String
  AllowedTenantAccess : String
  RedirectURIs : List String
  GrantTypes : List String
  ResponseTypes : List String
  Scopes : List String
  Contacts : List String
  Public : Bool
  Disabled : Bool
  Secret : String
  CreateTime : Int
  UpdateTime : Int
deriving Repr, DecidableEq

/-- The zero-value Client record. -/
def emptyClient : Client :=
  { ID := "", AllowedTenantAccess := "", RedirectURIs := [], GrantTypes := []
  , ResponseTypes := [], Scopes := [], Contacts := [], Public := false
  , Disabled := false, Secret := "", CreateTime := 0, UpdateTime := 0 }

/-- Modelled from the spec: IsEmpty reports whether the record is the
empty (zero-value) record, used by the migration path to detect a
not-found report from the legacy authentication function. -/
def Client.IsEmpty (c : Client) : Bool := c == emptyClient

/-- Modelled from the spec: GetHashedSecret returns the currently
stored (hashed) secret of the client record. -/
def Client.GetHashedSecret (c : Client) : String := c.Secret

/-- The pluggable hasher contract: Hash may fail with an internal
error (modelled as none); Compare reports whether the digest matches
the presented secret (the Go version reports a mismatch as an error). -/
structure Hasher where
  hash : String → Option String
  compare : String → String → Bool

/-- A hasher is good when every digest it produces differs from the
hashed plaintext and verifies against exactly that plaintext. -/
def GoodHasher (H : Hasher) : Prop :=
  ∀ s h, H.hash s = some h → h ≠ s ∧ ∀ t, (H.compare h t = true ↔ t = s)

/-- The error taxonomy surfaced by the managers. -/
inductive Err where
  | notFound
  | accessDenied
  | resourceExists
  | authFailure
  | hashFailure
  | engine (code : Nat)
deriving Repr, DecidableEq

/-- A client collection: the mongo clients collection with its unique
index on the id field. -/
abbrev ClientStore := List Client

/-- Find the record matching the id query, as the collection lookup does. -/
def findClient (store : ClientStore) (clientID : String) : Option Client :=
  store.find? (fun c => c.ID == clientID)

/-- Replace the record matching the id selector, as a collection
update with a unique id index does. -/
def replaceClient (store : ClientStore) (clientID : String) (c : Client) : ClientStore :=
  store.map (fun x => if x.ID == clientID then c else x)

/-- getConcrete returns the client resource with the given id, or NotFound. -/
def getConcrete (store : ClientStore) (clientID : String) : Except Err Client :=
  match findClient store clientID with
  | none => Except.error Err.notFound
  | some c => Except.ok c

/-- Outcome of a client-manager write operation: the returned result,
the collection afterwards, and the client records attached to the
externally surfaced trace-log payload on failure paths. -/
structure OpResult where
  res : Except Err Client
  store : ClientStore
  logged : List Client

/-- Create stores a new client resource: assigns the generated id when
the incoming id is blank, stamps create-time when it is zero, hashes
the incoming secret, inserts, and maps a duplicate-key violation to
the resource-exists error. On a generic engine fault the record is
logged with the secret field redacted. -/
def Create (H : Hasher) (store : ClientStore) (freshId : String) (now : Int)
    (fault : Option Nat) (client : Client) : OpResult :=
  let client := if client.ID == "" then { client with ID := freshId } else client
  let client := if client.CreateTime == 0 then { client with CreateTime := now } else client
  match H.hash client.Secret with
  | none => ⟨Except.error Err.hashFailure, store, []⟩
  | some hash =>
    let client := { client with Secret := hash }
    if (findClient store client.ID).isSome then
      ⟨Except.error Err.resourceExists, store, []⟩
    else
      match fault with
      | some e => ⟨Except.error (Err.engine e), store, [{ client with Secret := "REDACTED" }]⟩
      | none => ⟨Except.ok client, client :: store, []⟩

/-- Update rewrites an existing client resource: NotFound when the id
is absent, the incoming id is overwritten with the addressed id, the
update-time is stamped, and the secret is kept as the stored hash when
the incoming secret is blank or equal to the stored hash and hashed
otherwise. On a generic engine fault the final record is logged as is. -/
def Update (H : Hasher) (store : ClientStore) (now : Int) (fault : Option Nat)
    (clientID : String) (updatedClient : Client) : OpResult :=
  match getConcrete store clientID with
  | Except.error e => ⟨Except.error e, store, []⟩
  | Except.ok currentResource =>
    let updatedClient := { updatedClient with ID := clientID, UpdateTime := now }
    let secretStep : Except Err Client :=
      if currentResource.Secret == updatedClient.Secret || updatedClient.Secret == "" then
        Except.ok { updatedClient with Secret := currentResource.Secret }
      else
        match H.hash updatedClient.Secret with
        | none => Except.error Err.hashFailure
        | some newHash => Except.ok { updatedClient with Secret := newHash }
    match secretStep with
    | Except.error e => ⟨Except.error e, store, []⟩
    | Except.ok uc =>
      match fault with
      | some e => ⟨Except.error (Err.engine e), store, [uc]⟩
      | none => ⟨Except.ok uc, replaceClient store clientID uc, []⟩

/-- Migrate upserts the full record keyed by its id: a blank id gets
the generated id, a zero create-time is stamped with the current time
and otherwise the update-time is stamped, then the record is inserted
or overwrites the record with the same id. On a generic engine fault
the record is logged as is. -/
def Migrate (store : ClientStore) (freshId : String) (now : Int)
    (fault : Option Nat) (migratedClient : Client) : OpResult :=
  let mc := if migratedClient.ID == "" then { migratedClient with ID := freshId } else migratedClient
  let mc := if mc.CreateTime == 0 then { mc with CreateTime := now } else { mc with UpdateTime := now }
  match fault with
  | some e => ⟨Except.error (Err.engine e), store, [mc]⟩
  | none =>
    if (findClient store mc.ID).isSome then
      ⟨Except.ok mc, replaceClient store mc.ID mc, []⟩
    else
      ⟨Except.ok mc, store ++ [mc], []⟩

/-- DeleteClient removes the client resource with the given id,
reporting NotFound when no record matches. -/
def DeleteClient (store : ClientStore) (clientID : String) :
    Except Err Unit × ClientStore :=
  if (findClient store clientID).isSome then
    (Except.ok (), store.filter (fun c => c.ID != clientID))
  else
    (Except.error Err.notFound, store)

/-- Authenticate verifies the identity of a client resource: NotFound
when absent, public clients are allowed implicitly, disabled clients
are denied, otherwise the presented secret is compared against the
stored hash. -/
def Authenticate (H : Hasher) (store : ClientStore) (clientID : String)
    (secret : String) : Except Err Client :=
  match getConcrete store clientID with
  | Except.error e => Except.error e
  | Except.ok client =>
    if client.Public then Except.ok client
    else if client.Disabled then Except.error Err.accessDenied
    else if H.compare client.GetHashedSecret secret then Except.ok client
    else Except.error Err.authFailure

/-- The structured filter for listing clients; each blank or false
field imposes no constraint (field set taken from the query built by
the List operation). -/
structure ListClientsRequest where
  AllowedTenantAccess : String
  RedirectURI : String
  GrantType : String
  ResponseType : String
  ScopesIntersection : List String
  ScopesUnion : List String
  Contact : String
  Public : Bool
  Disabled : Bool
deriving Repr, DecidableEq

/-- The document keys that the List operation assigns in its query map. -/
inductive QKey where
  | allowedTenantAccess
  | redirectUris
  | grantTypes
  | responseTypes
  | scopes
  | contacts
  | publicFlag
  | disabledFlag
deriving Repr, DecidableEq

/-- A constraint placed on one document field: scalar equality, a
scalar matched against an array field (array containment in the query
language), the all-of and any-of array operators, and boolean
equality. -/
inductive FieldCond where
  | eqStr (v : String)
  | hasStr (v : String)
  | allOf (vs : List String)
  | anyOf (vs : List String)
  | eqBool (b : Bool)
deriving Repr, DecidableEq

/-- Assignment into the query map: setting a key that is already
present replaces its constraint, as a map write does. -/
def bsonSet (q : List (QKey × FieldCond)) (k : QKey) (v : FieldCond) :
    List (QKey × FieldCond) :=
  if q.any (fun p => p.1 == k) then
    q.map (fun p => if p.1 == k then (k, v) else p)
  else
    q ++ [(k, v)]

/-- The query map built by List from the non-empty and non-false
filter fields, in the order the operation assigns them. -/
def buildListQuery (f : ListClientsRequest) : List (QKey × FieldCond) :=
  let q : List (QKey × FieldCond) := []
  let q := if f.AllowedTenantAccess != "" then bsonSet q QKey.allowedTenantAccess (FieldCond.eqStr f.AllowedTenantAccess) else q
  let q := if f.RedirectURI != "" then bsonSet q QKey.redirectUris (FieldCond.hasStr f.RedirectURI) else q
  let q := if f.GrantType != "" then bsonSet q QKey.grantTypes (FieldCond.hasStr f.GrantType) else q
  let q := if f.ResponseType != "" then bsonSet q QKey.responseTypes (FieldCond.hasStr f.ResponseType) else q
  let q := if f.ScopesIntersection.length > 0 then bsonSet q QKey.scopes (FieldCond.allOf f.ScopesIntersection) else q
  let q := if f.ScopesUnion.length > 0 then bsonSet q QKey.scopes (FieldCond.anyOf f.ScopesUnion) else q
  let q := if f.Contact != "" then bsonSet q QKey.contacts (FieldCond.hasStr f.Contact) else q
  let q := if f.Public then bsonSet q QKey.publicFlag (FieldCond.eqBool f.Public) else q
  let q := if f.Disabled then bsonSet q QKey.disabledFlag (FieldCond.eqBool f.Disabled) else q
  q

/-- The meaning of one query entry on a client document, following the
query language: a scalar against an array field means containment, the
all-of operator requires every listed value present, the any-of
operator requires some listed value present. -/
def matchesEntry (c : Client) : QKey × FieldCond → Bool
  | (QKey.allowedTenantAccess, FieldCond.eqStr v) => c.AllowedTenantAccess == v
  | (QKey.redirectUris, FieldCond.hasStr v) => c.RedirectURIs.contains v
  | (QKey.grantTypes, FieldCond.hasStr v) => c.GrantTypes.contains v
  | (QKey.responseTypes, FieldCond.hasStr v) => c.ResponseTypes.contains v
  | (QKey.scopes, FieldCond.allOf vs) => vs.all (fun s => c.Scopes.contains s)
  | (QKey.scopes, FieldCond.anyOf vs) => vs.any (fun s => c.Scopes.contains s)
  | (QKey.contacts, FieldCond.hasStr v) => c.Contacts.contains v
  | (QKey.publicFlag, FieldCond.eqBool b) => c.Public == b
  | (QKey.disabledFlag, FieldCond.eqBool b) => c.Disabled == b
  | _ => false

/-- A document matches a query map when it satisfies every entry. -/
def matchesQuery (c : Client) (q : List (QKey × FieldCond)) : Bool :=
  q.all (matchesEntry c)

/-- List returns the clients matching the query built from the filter. -/
def listClients (store : ClientStore) (f : ListClientsRequest) : List Client :=
  store.filter (fun c => matchesQuery c (buildListQuery f))

/-- AuthenticateMigration runs the caller-supplied legacy
authentication function and either falls back to the current hasher
or upgrades the stored hash through Update. -/
def AuthenticateMigration (H : Hasher) (store : ClientStore) (now : Int)
    (fault : Option Nat) (currentAuth : Client × Bool) (clientID : String)
    (secret : String) : OpResult :=
  let client := currentAuth.1
  let authenticated := currentAuth.2
  if client.IsEmpty && !authenticated then
    ⟨Except.error Err.notFound, store, []⟩
  else if client.Public then
    ⟨Except.ok client, store, []⟩
  else if client.Disabled then
    ⟨Except.error Err.accessDenied, store, []⟩
  else if !authenticated then
    if H.compare client.GetHashedSecret secret then
      ⟨Except.ok client, store, []⟩
    else
      ⟨Except.error Err.authFailure, store, []⟩
  else
    match H.hash secret with
    | none => ⟨Except.error Err.hashFailure, store, []⟩
    | some newHash => Update H store now fault clientID { client with Secret := newHash }

/-- The persisted session request record, keyed by signature (data
model section: signature, owning client id, requested and granted
scopes, requested and granted audience, form values, opaque session
payload, request timestamp). -/
structure SessionRecord where
  signature : String
  clientID : String
  requestedScopes : List String
  grantedScopes : List String
  requestedAudience : List String
  grantedAudience : List String
  form : List (String × List String)
  sessionData : String
  requestTime : Int
deriving Repr, DecidableEq

/-- The requester object handed in by the protocol engine; its session
payload may be absent (a nil session). -/
structure Requester where
  clientID : String
  requestedScopes : List String
  grantedScopes : List String
  requestedAudience : List String
  grantedAudience : List String
  form : List (String × List String)
  session : Option String
  requestTime : Int
deriving Repr, DecidableEq

/-- Modelled from the spec: toMongo serializes the requester client
id, scopes, granted scopes, audience, granted audience, form and
session payload into a session record keyed by the signature (the
serializer itself is not among the sources). -/
def toMongo (signature : String) (r : Requester) : SessionRecord :=
  { signature := signature
  , clientID := r.clientID
  , requestedScopes := r.requestedScopes
  , grantedScopes := r.grantedScopes
  , requestedAudience := r.requestedAudience
  , grantedAudience := r.grantedAudience
  , form := r.form
  , sessionData := (match r.session with | some s => s | none => "")
  , requestTime := r.requestTime }

/-- The session collections backing the request manager; one physical
collection per grant kind, here the two kinds the claims mention. -/
structure RequestDB where
  pkceSessions : List SessionRecord
  openIDSessions : List SessionRecord
deriving Repr, DecidableEq

/-- Modelled from the spec: the generic session-record create used by
every session kind (not among the sources) fails with the
resource-exists conflict when a record with that signature already
exists in the target collection and otherwise stores the record keyed
by the signature. -/
def requestCreate (coll : List SessionRecord) (rec : SessionRecord) :
    Except Err (List SessionRecord) :=
  if (coll.find? (fun r => r.signature == rec.signature)).isSome then
    Except.error Err.resourceExists
  else
    Except.ok (coll ++ [rec])

/-- Modelled from the spec: GetBySignature (not among the sources)
fetches the record with the given signature from the collection,
reporting NotFound when absent. -/
def getBySignature (coll : List SessionRecord) (signature : String) :
    Except Err SessionRecord :=
  match coll.find? (fun r => r.signature == signature) with
  | some r => Except.ok r
  | none => Except.error Err.notFound

/-- Modelled from the spec: ToRequest (not among the sources) resolves
the owning client through the client manager, propagating NotFound
when the client has since been deleted, and reassembles the full
requester with the stored payload deserialized into the caller
supplied destination. -/
def toRequest (rec : SessionRecord) (_sessionDest : String)
    (clients : ClientStore) : Except Err Requester :=
  match findClient clients rec.clientID with
  | none => Except.error Err.notFound
  | some _ =>
    Except.ok
      { clientID := rec.clientID
      , requestedScopes := rec.requestedScopes
      , grantedScopes := rec.grantedScopes
      , requestedAudience := rec.requestedAudience
      , grantedAudience := rec.grantedAudience
      , form := rec.form
      , session := some rec.sessionData
      , requestTime := rec.requestTime }

/-- CreatePKCERequestSession stores the serialized request in the PKCE
session collection keyed by the signature. -/
def CreatePKCERequestSession (db : RequestDB) (signature : String)
    (request : Requester) : Except Err Unit × RequestDB :=
  match requestCreate db.pkceSessions (toMongo signature request) with
  | Except.error e => (Except.error e, db)
  | Except.ok coll => (Except.ok (), { db with pkceSessions := coll })

/-- CreateOpenIDConnectSession stores the serialized request in the
OpenID Connect session collection keyed by the authorize code. -/
def CreateOpenIDConnectSession (db : RequestDB) (authorizeCode : String)
    (request : Requester) : Except Err Unit × RequestDB :=
  match requestCreate db.openIDSessions (toMongo authorizeCode request) with
  | Except.error e => (Except.error e, db)
  | Except.ok coll => (Except.ok (), { db with openIDSessions := coll })

/-- GetOpenIDConnectSession fetches the stored record by the authorize
code, reports NotFound when the incoming requester carries a nil
session destination, and otherwise reconstitutes the request. The
collections are returned unchanged: the operation is a read. -/
def GetOpenIDConnectSession (db : RequestDB) (clients : ClientStore)
    (authorizeCode : String) (requester : Requester) :
    Except Err Requester × RequestDB :=
  match getBySignature db.openIDSessions authorizeCode with
  | Except.error e => (Except.error e, db)
  | Except.ok rec =>
    match requester.session with
    | none => (Except.error Err.notFound, db)
    | some sess => (toRequest rec sess clients, db)

/-- A concrete deterministic hasher used for witnesses: the digest of
a secret prepends one marker character to it. -/
def H0 : Hasher :=
  { hash := fun s => some (String.mk ('h' :: s.data))
  , compare := fun h s => h == String.mk ('h' :: s.data) }

/-- The record that Create hands back and persists for an incoming
client: generated id when blank, stamped create-time when zero, and
the digest of the incoming secret. -/
def createdRecord (freshId : String) (now : Int) (C : Client) (hv : String) : Client :=
  { C with ID := if C.ID == "" then freshId else C.ID
         , CreateTime := if C.CreateTime == 0 then now else C.CreateTime
         , Secret := hv }

/-- The timestamp stamping Migrate applies to the incoming record. -/
def migrateStamp (now : Int) (mc : Client) : Client :=
  if mc.CreateTime == 0 then { mc with CreateTime := now } else { mc with UpdateTime := now }

/-- The scope clause the claim describes for the filter: the union
field matches records containing any listed scope, the intersection
field matches records containing all listed scopes, and a supplied
union constraint is last-applied, replacing the intersection one. -/
def specScopesOK (f : ListClientsRequest) (c : Client) : Bool :=
  if f.ScopesUnion.length > 0 then f.ScopesUnion.any (fun s => c.Scopes.contains s)
  else if f.ScopesIntersection.length > 0 then f.ScopesIntersection.all (fun s => c.Scopes.contains s)
  else true

/-- The conjunctive filter predicate the claim describes: each empty
or false field imposes no constraint on its dimension. -/
def specClientMatches (f : ListClientsRequest) (c : Client) : Bool :=
  (f.AllowedTenantAccess == "" || c.AllowedTenantAccess == f.AllowedTenantAccess)
  && (f.RedirectURI == "" || c.RedirectURIs.contains f.RedirectURI)
  && (f.GrantType == "" || c.GrantTypes.contains f.GrantType)
  && (f.ResponseType == "" || c.ResponseTypes.contains f.ResponseType)
  && specScopesOK f c
  && (f.Contact == "" || c.Contacts.contains f.Contact)
  && (!f.Public || c.Public == f.Public)
  && (!f.Disabled || c.Disabled == f.Disabled)

/-- A stored client that is both public and disabled. -/
def cPubDis : Client := { emptyClient with ID := "pd", Public := true, Disabled := true }

/-- A stored client that is disabled and not public. -/
def cDis : Client := { emptyClient with ID := "d1", Secret := "hp", Disabled := true }

/-- A stored OpenID Connect session record used by witnesses. -/
def recOID : SessionRecord :=
  { signature := "code1", clientID := "c1", requestedScopes := ["a"]
  , grantedScopes := ["a"], requestedAudience := [], grantedAudience := []
  , form := [], sessionData := "payload", requestTime := 1 }

/-- A requester whose session destination is nil. -/
def reqNilSession : Requester :=
  { clientID := "c1", requestedScopes := ["a"], grantedScopes := ["a"]
  , requestedAudience := [], grantedAudience := [], form := []
  , session := none, requestTime := 1 }

/-- A requester with a concrete session used by witnesses. -/
def reqDemo : Requester :=
  { clientID := "c1", requestedScopes := ["a"], grantedScopes := ["a"]
  , requestedAudience := [], grantedAudience := [], form := []
  , session := some "sess", requestTime := 2 }

/-- A fresh client carrying a plaintext secret, used by witnesses. -/
def cNew : Client := { emptyClient with ID := "c1", Secret := "s" }

/-- A stored client whose secret field holds the digest of the
plaintext "p" under the concrete hasher. -/
def cStored : Client := { emptyClient with ID := "c1", Secret := "hp" }

/-- An update carrying a blank secret. -/
def ucBlankSecret : Client := { emptyClient with ID := "c1", Scopes := ["x"] }

/-- An update carrying a new plaintext secret. -/
def ucNewSecret : Client := { emptyClient with ID := "c1", Secret := "q" }

/-- An existing stored record with create-time five. -/
def cOld5 : Client := { emptyClient with ID := "a", CreateTime := 5 }

/-- An incoming migrated record for the same id with create-time zero. -/
def mcZero : Client := { emptyClient with ID := "a", Secret := "x" }

/-- An incoming migrated record for a free id with create-time five. -/
def mcFive : Client := { emptyClient with ID := "b", CreateTime := 5 }

/-- The stored record holding a legacy hash, used as the failing input
for the migration upgrade path. -/
def cLeg : Client := { emptyClient with ID := "c1", Secret := "legacy" }

/-- The record the migration upgrade path actually persists at the
failing input: its secret field holds the digest of the digest of the
presented secret. -/
def cLegMigrated : Client := { cLeg with UpdateTime := 7, Secret := "hhs" }

theorem goodHasher_H0 : GoodHasher H0 := by
  intro s h hh
  have hh2 : (String.mk ('h' :: s.data)) = h := by
    simpa [H0] using hh
  subst hh2
  constructor
  · intro he
    have hd := congrArg String.data he
    simp at hd
  · intro t
    constructor
    · intro hc
      have heq : (String.mk ('h' :: s.data)) = String.mk ('h' :: t.data) := by
        simpa [H0] using hc
      have hd := congrArg String.data heq
      simp at hd
      cases s; cases t
      simp_all
    · intro ht
      subst ht
      simp [H0]

theorem find?_append_of_none {α : Type} (p : α → Bool) (l : List α) (x : α)
    (hl : l.find? p = none) (hx : p x = true) :
    (l ++ [x]).find? p = some x := by
  induction l with
  | nil =>
    rw [List.nil_append, List.find?_cons_of_pos _ hx]
  | cons a as ih =>
    cases hpa : p a with
    | true =>
      rw [List.find?_cons_of_pos _ hpa] at hl
      exact absurd hl (by simp)
    | false =>
      rw [List.find?_cons_of_neg _ (by simp [hpa])] at hl
      rw [List.cons_append, List.find?_cons_of_neg _ (by simp [hpa])]
      exact ih hl

theorem findClient_replace (store : ClientStore) (id : String) (u : Client)
    (hid : u.ID = id) (hsome : (findClient store id).isSome = true) :
    findClient (replaceClient store id u) id = some u := by
  induction store with
  | nil => simp [findClient] at hsome
  | cons x xs ih =>
    by_cases hx : (x.ID == id) = true
    · unfold findClient replaceClient
      rw [List.map_cons, if_pos hx]
      exact List.find?_cons_of_pos _ (by simp [hid])
    · unfold findClient at hsome
      rw [List.find?_cons_of_neg _ (by simpa using hx)] at hsome
      unfold findClient replaceClient at ih ⊢
      rw [List.map_cons, if_neg hx, List.find?_cons_of_neg _ (by simpa using hx)]
      exact ih hsome

theorem findClient_filter_ne (store : ClientStore) (id : String) :
    findClient (store.filter (fun c => c.ID != id)) id = none := by
  induction store with
  | nil => rfl
  | cons x xs ih =>
    by_cases hx : (x.ID == id) = true
    · rw [List.filter_cons, if_neg (by simp [bne, hx])]
      exact ih
    · rw [List.filter_cons, if_pos (by simp [bne]; simpa using hx)]
      unfold findClient at ih ⊢
      rw [List.find?_cons_of_neg _ (by simpa using hx)]
      exact ih

set_option maxHeartbeats 2000000 in
theorem matchesQuery_eq_spec (f : ListClientsRequest) (c : Client) :
    matchesQuery c (buildListQuery f) = specClientMatches f c := by
  unfold buildListQuery specClientMatches specScopesOK
  by_cases h1 : (f.AllowedTenantAccess == "") = true <;>
  by_cases h2 : (f.RedirectURI == "") = true <;>
  by_cases h3 : (f.GrantType == "") = true <;>
  by_cases h4 : (f.ResponseType == "") = true <;>
  by_cases h5 : f.ScopesIntersection.length > 0 <;>
  by_cases h6 : f.ScopesUnion.length > 0 <;>
  by_cases h7 : (f.Contact == "") = true <;>
  by_cases h8 : f.Public = true <;>
  by_cases h9 : f.Disabled = true <;>
  simp [h1, h2, h3, h4, h5, h6, h7, h8, h9, bsonSet, bne, matchesQuery, matchesEntry,
        Bool.and_assoc]

/-- Claim C7: List builds a conjunctive query from exactly the
non-empty and non-false filter fields, each empty or false field
imposing no constraint; the scope-intersection field matches records
containing all listed scopes, the scope-union field matches records
containing any listed scope, and when both scope fields are supplied
the union constraint is last-applied, replacing the intersection
constraint instead of composing with it. -/
theorem list_query_semantics (store : ClientStore) (f : ListClientsRequest) :
    listClients store f = store.filter (fun c => specClientMatches f c) := by
  unfold listClients
  exact List.filter_congr (fun c _ => matchesQuery_eq_spec f c)

/-- Claim C2 counterexample: a stored client whose disabled flag is
set but whose public flag is also set is allowed access by
Authenticate instead of failing with AccessDenied, because the public
check runs before the disabled check. -/
theorem authenticate_public_disabled_cex :
    cPubDis.Disabled = true
    ∧ Authenticate H0 [cPubDis] "pd" "wrong" = Except.ok cPubDis := by
  constructor
  · rfl
  · rfl

/-- Claim C2 (amended): for every stored client whose disabled flag is
set and whose public flag is not set, Authenticate fails with
AccessDenied for every presented secret. -/
theorem authenticate_disabled_denied (H : Hasher) (store : ClientStore)
    (clientID secret : String) (c : Client)
    (hfind : findClient store clientID = some c)
    (hdis : c.Disabled = true) (hpub : c.Public = false) :
    Authenticate H store clientID secret = Except.error Err.accessDenied := by
  simp [Authenticate, getConcrete, hfind, hdis, hpub]

/-- Witness for claim C2: the amended theorem applied to a concrete
store holding a disabled, non-public client. -/
theorem authenticate_disabled_denied_witness :
    Authenticate H0 [cDis] "d1" "p" = Except.error Err.accessDenied :=
  authenticate_disabled_denied H0 [cDis] "d1" "p" cDis rfl rfl rfl

/-- Claim C8: deleting a present id succeeds, after which a get and a
second delete of that id both fail with NotFound; deleting an absent
id fails with NotFound. -/
theorem delete_then_get_notFound
    (store : ClientStore) (id : String) (c : Client)
    (hfound : findClient store id = some c)
    (storeB : ClientStore) (idB : String)
    (hmiss : findClient storeB idB = none) :
    (DeleteClient store id).1 = Except.ok ()
    ∧ getConcrete (DeleteClient store id).2 id = Except.error Err.notFound
    ∧ (DeleteClient (DeleteClient store id).2 id).1 = Except.error Err.notFound
    ∧ (DeleteClient storeB idB).1 = Except.error Err.notFound := by
  have hsome : (findClient store id).isSome = true := by
    simp [hfound]
  refine ⟨?_, ?_, ?_, ?_⟩
  · simp [DeleteClient, hsome]
  · simp [DeleteClient, hsome, getConcrete, findClient_filter_ne]
  · simp [DeleteClient, hsome, findClient_filter_ne]
  · simp [DeleteClient, hmiss]

/-- Witness for claim C8: the theorem applied to a concrete one-client
store and a concrete empty store. -/
theorem delete_then_get_notFound_witness :
    (DeleteClient [cDis] "d1").1 = Except.ok ()
    ∧ getConcrete (DeleteClient [cDis] "d1").2 "d1" = Except.error Err.notFound
    ∧ (DeleteClient (DeleteClient [cDis] "d1").2 "d1").1 = Except.error Err.notFound
    ∧ (DeleteClient [] "zz").1 = Except.error Err.notFound :=
  delete_then_get_notFound [cDis] "d1" cDis rfl [] "zz" rfl

/-- Claim C10: when the incoming requester carries a nil session
destination, GetOpenIDConnectSession reports NotFound even though a
session record for the authorize code exists, and the stored
collections are returned unmodified. -/
theorem openid_get_nil_session (db : RequestDB) (clients : ClientStore)
    (authorizeCode : String) (requester : Requester) (rec : SessionRecord)
    (hrec : db.openIDSessions.find? (fun r => r.signature == authorizeCode) = some rec)
    (hnil : requester.session = none) :
    GetOpenIDConnectSession db clients authorizeCode requester
      = (Except.error Err.notFound, db) := by
  simp [GetOpenIDConnectSession, getBySignature, hrec, hnil]

/-- Witness for claim C10: the theorem applied to a store that does
hold a record for the authorize code and a requester with a nil
session. -/
theorem openid_get_nil_session_witness :
    GetOpenIDConnectSession ⟨[], [recOID]⟩ [] "code1" reqNilSession
      = (Except.error Err.notFound, ⟨[], [recOID]⟩) :=
  openid_get_nil_session ⟨[], [recOID]⟩ [] "code1" reqNilSession recOID rfl rfl

/-- Claim C9: a session-record create against a collection already
holding a record with the given signature fails with the conflict
error and leaves the collections unchanged; against a collection
without such a record it stores the serialized record keyed by that
signature. -/
theorem session_create_conflict
    (dbA : RequestDB) (sigA : String) (reqA : Requester) (r0 : SessionRecord)
    (hA : dbA.pkceSessions.find? (fun r => r.signature == sigA) = some r0)
    (dbB : RequestDB) (sigB : String) (reqB : Requester)
    (hB : dbB.pkceSessions.find? (fun r => r.signature == sigB) = none)
    (dbC : RequestDB) (sigC : String) (reqC : Requester) (r1 : SessionRecord)
    (hC : dbC.openIDSessions.find? (fun r => r.signature == sigC) = some r1)
    (dbD : RequestDB) (sigD : String) (reqD : Requester)
    (hD : dbD.openIDSessions.find? (fun r => r.signature == sigD) = none) :
    CreatePKCERequestSession dbA sigA reqA = (Except.error Err.resourceExists, dbA)
    ∧ CreatePKCERequestSession dbB sigB reqB
        = (Except.ok (), { dbB with pkceSessions := dbB.pkceSessions ++ [toMongo sigB reqB] })
    ∧ (CreatePKCERequestSession dbB sigB reqB).2.pkceSessions.find?
        (fun r => r.signature == sigB) = some (toMongo sigB reqB)
    ∧ CreateOpenIDConnectSession dbC sigC reqC = (Except.error Err.resourceExists, dbC)
    ∧ CreateOpenIDConnectSession dbD sigD reqD
        = (Except.ok (), { dbD with openIDSessions := dbD.openIDSessions ++ [toMongo sigD reqD] })
    ∧ (CreateOpenIDConnectSession dbD sigD reqD).2.openIDSessions.find?
        (fun r => r.signature == sigD) = some (toMongo sigD reqD) := by
  refine ⟨?_, ?_, ?_, ?_, ?_, ?_⟩
  · simp [CreatePKCERequestSession, requestCreate, toMongo, hA]
  · simp [CreatePKCERequestSession, requestCreate, toMongo, hB]
  · simp [CreatePKCERequestSession, requestCreate, toMongo, hB]
  · simp [CreateOpenIDConnectSession, requestCreate, toMongo, hC]
  · simp [CreateOpenIDConnectSession, requestCreate, toMongo, hD]
  · simp [CreateOpenIDConnectSession, requestCreate, toMongo, hD]

/-- Witness for claim C9: the theorem applied to concrete collections,
one already holding a record with the signature and one without. -/
theorem session_create_conflict_witness :
    CreatePKCERequestSession ⟨[toMongo "sig1" reqDemo], []⟩ "sig1" reqDemo
      = (Except.error Err.resourceExists, ⟨[toMongo "sig1" reqDemo], []⟩)
    ∧ CreatePKCERequestSession ⟨[], []⟩ "sig2" reqDemo
      = (Except.ok (), ⟨[toMongo "sig2" reqDemo], []⟩)
    ∧ (CreatePKCERequestSession ⟨[], []⟩ "sig2" reqDemo).2.pkceSessions.find?
        (fun r => r.signature == "sig2") = some (toMongo "sig2" reqDemo)
    ∧ CreateOpenIDConnectSession ⟨[], [recOID]⟩ "code1" reqDemo
      = (Except.error Err.resourceExists, ⟨[], [recOID]⟩)
    ∧ CreateOpenIDConnectSession ⟨[], []⟩ "code2" reqDemo
      = (Except.ok (), ⟨[], [toMongo "code2" reqDemo]⟩)
    ∧ (CreateOpenIDConnectSession ⟨[], []⟩ "code2" reqDemo).2.openIDSessions.find?
        (fun r => r.signature == "code2") = some (toMongo "code2" reqDemo) :=
  session_create_conflict
    ⟨[toMongo "sig1" reqDemo], []⟩ "sig1" reqDemo (toMongo "sig1" reqDemo) rfl
    ⟨[], []⟩ "sig2" reqDemo rfl
    ⟨[], [recOID]⟩ "code1" reqDemo recOID rfl
    ⟨[], []⟩ "code2" reqDemo rfl

/-- Getting the id of a freshly inserted record returns that record. -/
theorem getConcrete_cons_self (u : Client) (store : ClientStore) :
    getConcrete (u :: store) u.ID = Except.ok u := by
  simp [getConcrete, findClient]

/-- Claim C3: for a valid client (one whose effective id is free and
whose secret the hasher accepts), Create followed by a get of the
created id returns the very record Create returned, and that record
holds a hashed secret different from the supplied plaintext. -/
theorem create_get_roundtrip (H : Hasher) (store : ClientStore)
    (freshId : String) (now : Int) (C : Client) (hv : String)
    (hG : GoodHasher H)
    (hh : H.hash C.Secret = some hv)
    (hfree : findClient store (if C.ID == "" then freshId else C.ID) = none) :
    (Create H store freshId now none C).res = Except.ok (createdRecord freshId now C hv)
    ∧ getConcrete (Create H store freshId now none C).store
        (createdRecord freshId now C hv).ID = Except.ok (createdRecord freshId now C hv)
    ∧ (createdRecord freshId now C hv).Secret ≠ C.Secret := by
  have hne := (hG C.Secret hv hh).1
  by_cases hid : (C.ID == "") = true <;>
  by_cases hct : (C.CreateTime == 0) = true <;>
  · simp only [hid, hct, ite_true, ite_false, Bool.false_eq_true] at hfree
    have hstore : (Create H store freshId now none C).store
        = createdRecord freshId now C hv :: store := by
      unfold Create createdRecord
      simp [hid, hct, hh, hfree]
    refine ⟨?_, ?_, ?_⟩
    · unfold Create createdRecord
      simp [hid, hct, hh, hfree]
    · rw [hstore]
      exact getConcrete_cons_self _ _
    · unfold createdRecord
      simpa using hne

/-- Witness for claim C3: the theorem applied to the empty store and a
concrete client, with the concrete good hasher. -/
theorem create_get_roundtrip_witness :
    (Create H0 [] "fresh" 3 none cNew).res = Except.ok (createdRecord "fresh" 3 cNew "hs")
    ∧ getConcrete (Create H0 [] "fresh" 3 none cNew).store
        (createdRecord "fresh" 3 cNew "hs").ID = Except.ok (createdRecord "fresh" 3 cNew "hs")
    ∧ (createdRecord "fresh" 3 cNew "hs").Secret ≠ cNew.Secret :=
  create_get_roundtrip H0 [] "fresh" 3 cNew "hs" goodHasher_H0 rfl rfl

/-- Claim C4: Update fails with NotFound on an absent id; on a present
id the stored result keeps the addressed id and is stamped with the
update time; a blank incoming secret or one equal to the stored hash
retains the stored hash unchanged, while a new secret is hashed and
the new hash verifies against the new plaintext and fails against the
plaintext behind the old hash. -/
theorem update_spec
    (H : Hasher) (hG : GoodHasher H)
    (storeA : ClientStore) (idA : String) (ucA : Client) (nowA : Int)
    (hA : findClient storeA idA = none)
    (store : ClientStore) (idB : String) (cur : Client) (now : Int)
    (hB : findClient store idB = some cur)
    (uc1 : Client) (h1 : uc1.Secret = cur.Secret ∨ uc1.Secret = "")
    (uc2 : Client) (h2 : uc2.Secret ≠ cur.Secret) (h2b : uc2.Secret ≠ "")
    (nh : String) (hh : H.hash uc2.Secret = some nh)
    (oldPlain : String) (hop : H.hash oldPlain = some cur.Secret)
    (hne : oldPlain ≠ uc2.Secret) :
    (Update H storeA nowA none idA ucA).res = Except.error Err.notFound
    ∧ (Update H store now none idB uc1).res
        = Except.ok { uc1 with ID := idB, UpdateTime := now, Secret := cur.Secret }
    ∧ findClient (Update H store now none idB uc1).store idB
        = some { uc1 with ID := idB, UpdateTime := now, Secret := cur.Secret }
    ∧ (Update H store now none idB uc2).res
        = Except.ok { uc2 with ID := idB, UpdateTime := now, Secret := nh }
    ∧ findClient (Update H store now none idB uc2).store idB
        = some { uc2 with ID := idB, UpdateTime := now, Secret := nh }
    ∧ H.compare nh uc2.Secret = true
    ∧ H.compare nh oldPlain = false := by
  have hc1 : (cur.Secret == uc1.Secret || uc1.Secret == "") = true := by
    rcases h1 with h | h <;> simp [h]
  have hc2 : (cur.Secret == uc2.Secret || uc2.Secret == "") = false := by
    have h2s : cur.Secret ≠ uc2.Secret := fun h => h2 h.symm
    simp [h2s, h2b]
  have hsome : (findClient store idB).isSome = true := by
    simp [hB]
  have hstore1 : (Update H store now none idB uc1).store
      = replaceClient store idB { uc1 with ID := idB, UpdateTime := now, Secret := cur.Secret } := by
    unfold Update
    simp [getConcrete, hB, hc1]
  have hstore2 : (Update H store now none idB uc2).store
      = replaceClient store idB { uc2 with ID := idB, UpdateTime := now, Secret := nh } := by
    unfold Update
    simp [getConcrete, hB, hc2, hh]
  refine ⟨?_, ?_, ?_, ?_, ?_, ?_, ?_⟩
  · unfold Update
    simp [getConcrete, hA]
  · unfold Update
    simp [getConcrete, hB, hc1]
  · rw [hstore1]
    exact findClient_replace store idB _ rfl hsome
  · unfold Update
    simp [getConcrete, hB, hc2, hh]
  · rw [hstore2]
    exact findClient_replace store idB _ rfl hsome
  · exact ((hG uc2.Secret nh hh).2 uc2.Secret).mpr rfl
  · cases hcv : H.compare nh oldPlain with
    | false => rfl
    | true => exact absurd (((hG uc2.Secret nh hh).2 oldPlain).mp hcv) hne

/-- Witness for claim C4: the theorem applied to a concrete store with
one client whose stored hash is the digest of "p", one blank-secret
update and one new-secret update. -/
theorem update_spec_witness :
    (Update H0 [] 9 none "nope" emptyClient).res = Except.error Err.notFound
    ∧ (Update H0 [cStored] 5 none "c1" ucBlankSecret).res
        = Except.ok { ucBlankSecret with ID := "c1", UpdateTime := 5, Secret := cStored.Secret }
    ∧ findClient (Update H0 [cStored] 5 none "c1" ucBlankSecret).store "c1"
        = some { ucBlankSecret with ID := "c1", UpdateTime := 5, Secret := cStored.Secret }
    ∧ (Update H0 [cStored] 5 none "c1" ucNewSecret).res
        = Except.ok { ucNewSecret with ID := "c1", UpdateTime := 5, Secret := "hq" }
    ∧ findClient (Update H0 [cStored] 5 none "c1" ucNewSecret).store "c1"
        = some { ucNewSecret with ID := "c1", UpdateTime := 5, Secret := "hq" }
    ∧ H0.compare "hq" ucNewSecret.Secret = true
    ∧ H0.compare "hq" "p" = false :=
  update_spec H0 goodHasher_H0 [] "nope" emptyClient 9 rfl
    [cStored] "c1" cStored 5 rfl
    ucBlankSecret (Or.inr rfl)
    ucNewSecret (by decide) (by decide)
    "hq" rfl
    "p" rfl (by decide)

/-- Claim C5 counterexample: Migrate onto an existing id with an
incoming create-time of zero stamps the create-time and leaves the
update-time untouched, and Migrate inserting a record with a nonzero
create-time stamps the update-time and leaves the create-time
untouched - the stamping follows the incoming create-time field, not
the presence of the record. -/
theorem migrate_stamp_cex :
    findClient [cOld5] mcZero.ID = some cOld5
    ∧ (Migrate [cOld5] "f" 99 none mcZero).res = Except.ok { mcZero with CreateTime := 99 }
    ∧ ({ mcZero with CreateTime := 99 } : Client).UpdateTime ≠ 99
    ∧ findClient [] mcFive.ID = none
    ∧ (Migrate [] "f" 99 none mcFive).res = Except.ok { mcFive with UpdateTime := 99 }
    ∧ ({ mcFive with UpdateTime := 99 } : Client).CreateTime ≠ 99 := by
  refine ⟨rfl, rfl, by decide, rfl, rfl, by decide⟩

/-- The id field is untouched by the timestamp stamping. -/
theorem migrateStamp_ID (n : Int) (mc : Client) : (migrateStamp n mc).ID = mc.ID := by
  unfold migrateStamp
  by_cases h : (mc.CreateTime == 0) = true <;> simp [h]

/-- Evaluation of Migrate for a record with a nonempty id and no
engine fault: an upsert of the stamped record keyed by the id. -/
theorem migrate_eval (store : ClientStore) (freshId : String) (now : Int) (mc : Client)
    (hid : mc.ID ≠ "") :
    Migrate store freshId now none mc =
      if (findClient store mc.ID).isSome then
        ⟨Except.ok (migrateStamp now mc), replaceClient store mc.ID (migrateStamp now mc), []⟩
      else
        ⟨Except.ok (migrateStamp now mc), store ++ [migrateStamp now mc], []⟩ := by
  by_cases hct : (mc.CreateTime == 0) = true <;>
  by_cases hfound : (findClient store mc.ID).isSome = true <;>
    simp [Migrate, migrateStamp, beq_iff_eq, hid, hct, hfound]

/-- Claim C5 (amended): Migrate is an upsert keyed by the client id,
inserting a new record when the id is absent and overwriting the whole
record when it is present; it stamps the create-time exactly when the
incoming record carries a zero create-time and otherwise stamps the
update-time, independently of whether a record already existed. -/
theorem migrate_upsert_stamp
    (storeI : ClientStore) (mcI : Client) (freshId : String) (now : Int)
    (hIid : mcI.ID ≠ "")
    (hI : findClient storeI mcI.ID = none)
    (storeO : ClientStore) (mcO : Client) (old : Client) (nowO : Int)
    (hOid : mcO.ID ≠ "")
    (hO : findClient storeO mcO.ID = some old) :
    (Migrate storeI freshId now none mcI).res = Except.ok (migrateStamp now mcI)
    ∧ (Migrate storeI freshId now none mcI).store = storeI ++ [migrateStamp now mcI]
    ∧ (Migrate storeO freshId nowO none mcO).res = Except.ok (migrateStamp nowO mcO)
    ∧ (Migrate storeO freshId nowO none mcO).store
        = replaceClient storeO mcO.ID (migrateStamp nowO mcO)
    ∧ (mcI.CreateTime = 0 →
        (migrateStamp now mcI).CreateTime = now
        ∧ (migrateStamp now mcI).UpdateTime = mcI.UpdateTime)
    ∧ (mcI.CreateTime ≠ 0 →
        (migrateStamp now mcI).UpdateTime = now
        ∧ (migrateStamp now mcI).CreateTime = mcI.CreateTime)
    ∧ (mcO.CreateTime = 0 →
        (migrateStamp nowO mcO).CreateTime = nowO
        ∧ (migrateStamp nowO mcO).UpdateTime = mcO.UpdateTime)
    ∧ (mcO.CreateTime ≠ 0 →
        (migrateStamp nowO mcO).UpdateTime = nowO
        ∧ (migrateStamp nowO mcO).CreateTime = mcO.CreateTime) := by
  have hEvalI := migrate_eval storeI freshId now mcI hIid
  have hEvalO := migrate_eval storeO freshId nowO mcO hOid
  have hfI : (findClient storeI mcI.ID).isSome = false := by
    simp [hI]
  have hfO : (findClient storeO mcO.ID).isSome = true := by
    simp [hO]
  rw [hfI] at hEvalI
  rw [hfO] at hEvalO
  simp only [Bool.false_eq_true, ite_false, ite_true] at hEvalI hEvalO
  refine ⟨?_, ?_, ?_, ?_, ?_, ?_, ?_, ?_⟩
  · rw [hEvalI]
  · rw [hEvalI]
  · rw [hEvalO]
  · rw [hEvalO]
  · intro h
    unfold migrateStamp
    simp [h]
  · intro h
    unfold migrateStamp
    simp [beq_iff_eq, h]
  · intro h
    unfold migrateStamp
    simp [h]
  · intro h
    unfold migrateStamp
    simp [beq_iff_eq, h]

/-- Witness for claim C5: the amended theorem applied to an insert of
a record with nonzero create-time and an overwrite of an existing id
by a record with zero create-time. -/
theorem migrate_upsert_stamp_witness :
    (Migrate [] "f" 99 none mcFive).res = Except.ok (migrateStamp 99 mcFive)
    ∧ (Migrate [] "f" 99 none mcFive).store = [] ++ [migrateStamp 99 mcFive]
    ∧ (Migrate [cOld5] "f" 77 none mcZero).res = Except.ok (migrateStamp 77 mcZero)
    ∧ (Migrate [cOld5] "f" 77 none mcZero).store
        = replaceClient [cOld5] mcZero.ID (migrateStamp 77 mcZero)
    ∧ (mcFive.CreateTime = 0 →
        (migrateStamp 99 mcFive).CreateTime = 99
        ∧ (migrateStamp 99 mcFive).UpdateTime = mcFive.UpdateTime)
    ∧ (mcFive.CreateTime ≠ 0 →
        (migrateStamp 99 mcFive).UpdateTime = 99
        ∧ (migrateStamp 99 mcFive).CreateTime = mcFive.CreateTime)
    ∧ (mcZero.CreateTime = 0 →
        (migrateStamp 77 mcZero).CreateTime = 77
        ∧ (migrateStamp 77 mcZero).UpdateTime = mcZero.UpdateTime)
    ∧ (mcZero.CreateTime ≠ 0 →
        (migrateStamp 77 mcZero).UpdateTime = 77
        ∧ (migrateStamp 77 mcZero).CreateTime = mcZero.CreateTime) :=
  migrate_upsert_stamp [] mcFive "f" 99 (by decide) rfl
    [cOld5] mcZero cOld5 77 (by decide) rfl

/-- Claim C6 counterexample: on the Update generic-failure path the
record is attached to the log payload with its secret field holding
the stored hash, not the redaction marker. -/
theorem update_log_unredacted_cex :
    (Update H0 [cStored] 5 (some 0) "c1" ucBlankSecret).logged
      = [{ ucBlankSecret with ID := "c1", UpdateTime := 5, Secret := "hp" }]
    ∧ ({ ucBlankSecret with ID := "c1", UpdateTime := 5, Secret := "hp" } : Client).Secret
        ≠ "REDACTED" := by
  refine ⟨rfl, by decide⟩

/-- Claim C6 (amended): only Create redacts the secret field of the
record it attaches to the failure-path log payload; Update and Migrate
log nothing on a faultless run and attach, on their generic-failure
paths, exactly the record a faultless run would have persisted, with
its secret field unredacted. -/
theorem failure_log_redaction (H : Hasher) (store : ClientStore)
    (freshId : String) (now : Int) (fault : Option Nat) (id : String)
    (c uc mc : Client) (e : Nat) :
    ((Create H store freshId now fault c).logged.all
        (fun r => r.Secret == "REDACTED")) = true
    ∧ (Update H store now none id uc).logged = []
    ∧ (Migrate store freshId now none mc).logged = []
    ∧ (Update H store now (some e) id uc).logged
        = (match (Update H store now none id uc).res with
           | Except.ok u => [u]
           | Except.error _ => [])
    ∧ (Migrate store freshId now (some e) mc).logged
        = (match (Migrate store freshId now none mc).res with
           | Except.ok u => [u]
           | Except.error _ => []) := by
  refine ⟨?_, ?_, ?_, ?_, ?_⟩
  · by_cases hid : (c.ID == "") = true <;>
    by_cases hct : (c.CreateTime == 0) = true <;>
    cases hh : H.hash c.Secret <;>
    by_cases hf1 : (findClient store freshId).isSome = true <;>
    by_cases hf2 : (findClient store c.ID).isSome = true <;>
    cases fault <;>
    simp [Create, hid, hct, hh, hf1, hf2]
  · cases hcur : getConcrete store id with
    | error e2 => simp [Update, hcur]
    | ok cur =>
      by_cases hsec : (cur.Secret == uc.Secret || uc.Secret == "") = true <;>
      cases hh : H.hash uc.Secret <;>
      simp [Update, hcur, hsec, hh]
  · by_cases hid : (mc.ID == "") = true <;>
    by_cases hct : (mc.CreateTime == 0) = true <;>
    by_cases hf1 : (findClient store freshId).isSome = true <;>
    by_cases hf2 : (findClient store mc.ID).isSome = true <;>
    simp [Migrate, hid, hct, hf1, hf2]
  · cases hcur : getConcrete store id with
    | error e2 => simp [Update, hcur]
    | ok cur =>
      by_cases hsec : (cur.Secret == uc.Secret || uc.Secret == "") = true <;>
      cases hh : H.hash uc.Secret <;>
      simp [Update, hcur, hsec, hh]
  · by_cases hid : (mc.ID == "") = true <;>
    by_cases hct : (mc.CreateTime == 0) = true <;>
    by_cases hf1 : (findClient store freshId).isSome = true <;>
    by_cases hf2 : (findClient store mc.ID).isSome = true <;>
    simp [Migrate, hid, hct, hf1, hf2]

/-- Claim C1 (code bug, step five): at a concrete input where the
legacy function resolves the stored record and authenticates, the
migration computes the new hash of the presented secret (the digest
"hs") but persists and returns a record whose secret field is the
digest of that digest ("hhs"), because Update re-hashes the already
hashed incoming secret; a subsequent Authenticate with the same
presented secret then fails instead of succeeding against the
migrated hash. -/
theorem authenticateMigration_rehash_bug :
    H0.hash "s" = some "hs"
    ∧ (AuthenticateMigration H0 [cLeg] 7 none (cLeg, true) "c1" "s").res
        = Except.ok cLegMigrated
    ∧ findClient (AuthenticateMigration H0 [cLeg] 7 none (cLeg, true) "c1" "s").store "c1"
        = some cLegMigrated
    ∧ cLegMigrated.Secret = "hhs"
    ∧ ("hhs" : String) ≠ "hs"
    ∧ Authenticate H0
        (AuthenticateMigration H0 [cLeg] 7 none (cLeg, true) "c1" "s").store "c1" "s"
        = Except.error Err.authFailure := by
  refine ⟨rfl, rfl, rfl, rfl, by decide, rfl⟩
